import Mathlib

/-!
Verification development for the swuSearch repository.

We give a shallow embedding of the core pieces of the program:
  * the boolean include/exclude query engine
    (`src/image_search_app/search_filters.py`),
  * the card classification heuristics
    (`src/image_search_app/scripts/card_classifier.py`),
  * the record store flatten/merge logic and persistence callers
    (`src/swu_search_app/main.py`).

Python strings are modelled as Lean `String`, Python lists as Lean `List`,
Python dicts (which preserve key insertion order and have unique keys) as
association lists together with an order-preserving insert-or-update
operation. Machine-level details (Qt signals, the PDF extraction engine)
are outside the embedded core, exactly as in the specification's scope.
-/

set_option autoImplicit false

namespace SwuSearch

/-! ### Python string primitives

Kernel-reducible models of the Python `str` methods the program uses.
They work on the character list underlying a `String`. -/

/-- `str.strip()` on a character list: drop whitespace from both ends. -/
def stripChars (cs : List Char) : List Char :=
  ((cs.dropWhile Char.isWhitespace).reverse.dropWhile Char.isWhitespace).reverse

/-- `str.strip()`. -/
def pyStrip (s : String) : String :=
  String.mk (stripChars s.toList)

/-- `str.lower()` (ASCII case folding, as the program's tokens use). -/
def pyLower (s : String) : String :=
  String.mk (s.toList.map Char.toLower)

/-- Substring containment `needle in hay` on character lists. -/
def containsSub (needle : List Char) : List Char → Bool
  | [] => needle.isEmpty
  | c :: t => needle.isPrefixOf (c :: t) || containsSub needle t

/-- Python `needle in hay` for strings. -/
def pyContains (hay needle : String) : Bool :=
  containsSub needle.toList hay.toList

/-- `sep.join(parts)` (kernel-reducible join). -/
def pyJoin (sep : String) : List String → String
  | [] => ""
  | [s] => s
  | s :: rest => s ++ sep ++ pyJoin sep rest

/-! ### Query engine: `search_filters.py` -/

namespace SearchFilters

/-- One step of `_tokenize`'s character loop. `buf` is the pending buffer,
`inQuote` the quote state; tokens are emitted in order. Mirrors
`search_filters.py` lines 9-45 (the trailing `strip()` on each buffered
token and the final flush included). -/
def tokenizeAux : List Char → List Char → Bool → List String
  | [], buf, _ =>
      if buf.isEmpty then [] else [pyStrip (String.mk buf)]
  | c :: rest, buf, inQuote =>
      if c = '"' then
        if inQuote then
          pyStrip (String.mk buf) :: tokenizeAux rest [] false
        else if buf.isEmpty then
          tokenizeAux rest [] true
        else
          pyStrip (String.mk buf) :: tokenizeAux rest [] true
      else if c = '(' ∨ c = ')' then
        if inQuote then
          tokenizeAux rest (buf ++ [c]) inQuote
        else if buf.isEmpty then
          String.mk [c] :: tokenizeAux rest [] false
        else
          pyStrip (String.mk buf) :: String.mk [c] :: tokenizeAux rest [] false
      else if c.isWhitespace ∧ ¬ inQuote then
        if buf.isEmpty then
          tokenizeAux rest [] false
        else
          pyStrip (String.mk buf) :: tokenizeAux rest [] false
      else
        tokenizeAux rest (buf ++ [c]) inQuote

/-- `_tokenize(expr)`: split an expression into tokens, preserving quoted
phrases and parentheses; empty tokens are dropped at the end. -/
def tokenize (expr : String) : List String :=
  (tokenizeAux expr.toList [] false).filter (fun t => t ≠ "")

/-- The operator-precedence table `prec = {"AND": 2, "OR": 1}`; `0` stands
for "not in the table". -/
def precOf (t : String) : Nat :=
  if t == "AND" then 2 else if t == "OR" then 1 else 0

/-- `tok in ("AND", "OR")` / `tok in prec`. -/
def isBoolOp (t : String) : Bool :=
  t == "AND" || t == "OR"

/-- The inner `while` loop of `_to_postfix` for an operator token: pop
operators of greater-or-equal precedence. The stack's head is its top.
Returns the popped operators (in pop order) and the remaining stack. -/
def popGE : List String → Nat → List String × List String
  | [], _ => ([], [])
  | s :: rest, p =>
      if isBoolOp s ∧ precOf s ≥ p then
        let r := popGE rest p
        (s :: r.1, r.2)
      else
        ([], s :: rest)

/-- The `while` loop of `_to_postfix` for a `)` token: pop to the matching
`(`, dropping the `(` itself when found. -/
def popToParen : List String → List String × List String
  | [] => ([], [])
  | s :: rest =>
      if s = "(" then
        ([], rest)
      else
        let r := popToParen rest
        (s :: r.1, r.2)

/-- The token loop of `_to_postfix` (`search_filters.py` lines 48-69),
carrying `output` and the operator `stack` (head = top). At the end of
input the whole remaining stack — unmatched `(` included — is appended to
the output, exactly as `while stack: output.append(stack.pop())` does. -/
def toRpnAux : List String → List String → List String → List String
  | [], output, stack => output ++ stack
  | tok :: ts, output, stack =>
      if isBoolOp tok then
        let r := popGE stack (precOf tok)
        toRpnAux ts (output ++ r.1) (tok :: r.2)
      else if tok = "(" then
        toRpnAux ts output (tok :: stack)
      else if tok = ")" then
        let r := popToParen stack
        toRpnAux ts (output ++ r.1) r.2
      else
        toRpnAux ts (output ++ [tok]) stack

/-- `_to_postfix(tokens)`: shunting-yard conversion to postfix. -/
def toRpn (tokens : List String) : List String :=
  toRpnAux tokens [] []

/-- `_match_token(token, haystack)`: `token.lower() in haystack`
(substring containment of the lowered token in the haystack as given). -/
def matchToken (token haystack : String) : Bool :=
  pyContains haystack (pyLower token)

/-- `stack.pop() if stack else False`, returning the value and the rest of
the stack (head = top). -/
def popBool : List Bool → Bool × List Bool
  | [] => (false, [])
  | x :: xs => (x, xs)

/-- One iteration of `_eval_postfix`'s loop over the postfix tokens. -/
def evalStep (haystack : String) (stack : List Bool) (tok : String) : List Bool :=
  if tok == "AND" then
    let b := popBool stack
    let a := popBool b.2
    (a.1 && b.1) :: a.2
  else if tok == "OR" then
    let b := popBool stack
    let a := popBool b.2
    (a.1 || b.1) :: a.2
  else
    matchToken tok haystack :: stack

/-- `_eval_postfix(postfix, haystack)` (`search_filters.py` lines 76-91):
empty postfix is `True`; otherwise run the stack machine and return the
top of the stack, or `False` when the stack is empty. -/
def evalRpn (rpn : List String) (haystack : String) : Bool :=
  if rpn.isEmpty then
    true
  else
    match rpn.foldl (evalStep haystack) [] with
    | [] => false
    | x :: _ => x

/-- `evaluate_expression(expr, haystack)`: strip; empty means `True`;
otherwise tokenize, keep `"AND"`/`"OR"` as operators (the list
comprehension on line 101 maps every other token to itself), convert to
postfix and evaluate. The `try/except` around `_to_postfix` guards a
total pure function and can never fire, so it is modelled away. -/
def evaluate_expression (expr haystack : String) : Bool :=
  let e := pyStrip expr
  if e == "" then
    true
  else
    let tokens := tokenize e
    let tokens := tokens.map (fun t =>
      if t == "AND" then "AND" else if t == "OR" then "OR" else t)
    evalRpn (toRpn tokens) haystack

/-- The card-dict fields `_card_text` reads; an absent key (or a
non-string value) is modelled as `none`. -/
structure SearchCard where
  scanned_text : Option String := none
  file_path : Option String := none
  pdf_path : Option String := none
deriving Repr, DecidableEq

/-- `Path(p).name`: the final path component (the part after the last
`/` separator). -/
def pathName (p : String) : String :=
  String.mk ((p.toList.splitOn '/').getLast?.getD [])

/-- `_card_text(card)` (`search_filters.py` lines 109-117): join the
scanned text and the base names of the file paths, then lower-case. -/
def cardText (c : SearchCard) : String :=
  let bits : List String :=
    (match c.scanned_text with | some s => [s] | none => [])
      ++ (match c.file_path with | some s => [pathName s] | none => [])
      ++ (match c.pdf_path with | some s => [pathName s] | none => [])
  pyLower (pyJoin " " bits)

/-- `filter_cards(cards, include_expr, exclude_expr)` (`search_filters.py`
lines 120-133): keep a card iff the include expression evaluates true and
not (the exclude expression is non-empty and evaluates true). Order is
the input order. -/
def filter_cards (cards : List SearchCard) (includeExpr excludeExpr : String) :
    List SearchCard :=
  let ie := pyStrip includeExpr
  let ee := pyStrip excludeExpr
  cards.filter (fun card =>
    let text := cardText card
    evaluate_expression ie text && !(ee != "" && evaluate_expression ee text))

/-- A query token that is neither a boolean operator nor a parenthesis:
what the specification calls a literal token. -/
@[reducible] def isPlainTok (t : String) : Prop :=
  t ≠ "AND" ∧ t ≠ "OR" ∧ t ≠ "(" ∧ t ≠ ")"

end SearchFilters

/-! ### Classification engine: `scripts/card_classifier.py` -/

namespace Classifier

/-- `str.upper()` (ASCII). -/
def pyUpper (s : String) : String :=
  String.mk (s.toList.map Char.toUpper)

/-- `str.isupper()`: at least one cased character, and every cased
character is upper case (cased = ASCII letter here). -/
def pyIsUpper (s : String) : Bool :=
  s.toList.any Char.isAlpha && s.toList.all (fun c => !c.isAlpha || c.isUpper)

/-- `str.split()` with no separator: split on whitespace runs, no empty
parts. -/
def wordsAux : List Char → List Char → List String
  | [], buf => if buf.isEmpty then [] else [String.mk buf]
  | c :: rest, buf =>
      if c.isWhitespace then
        if buf.isEmpty then wordsAux rest [] else String.mk buf :: wordsAux rest []
      else
        wordsAux rest (buf ++ [c])

/-- `str.split()`. -/
def pySplit (s : String) : List String :=
  wordsAux s.toList []

/-- `_as_lines` on a list value: keep the stripped lines that are
non-empty. (On a flat string the source re-splits on newlines first; the
claims only exercise the list branch, which we model.) -/
def asLines (text : List String) : List String :=
  (text.map pyStrip).filter (fun ln => ln ≠ "")

/-- `re.match(r"^[vV]\d+", line)`: a `v`/`V` followed by at least one
digit, as a prefix. -/
def startsVNum (s : String) : Bool :=
  match s.toList with
  | c0 :: c1 :: _ => (c0 == 'v' || c0 == 'V') && c1.isDigit
  | _ => false

/-- `re.match(r"^\d+/\d+", line)`: digits, a slash, digits, as a prefix. -/
def startsNumSlashNum (s : String) : Bool :=
  let cs := s.toList
  let ds := cs.takeWhile Char.isDigit
  match cs.drop ds.length with
  | '/' :: r => !ds.isEmpty && !(r.takeWhile Char.isDigit).isEmpty
  | _ => false

/-- `_is_meta(line)` (`card_classifier.py` lines 18-29). -/
def isMeta (line : String) : Bool :=
  if line == "" then true
  else if pyContains line "©" || pyContains (pyLower line) ".psd" then true
  else if startsVNum line then true
  else if startsNumSlashNum line then true
  else if line == "EN" || line == "SYS" || line == "HMW" then true
  else false

/-- `ln.replace("−", "-")` (U+2212 minus normalised to ASCII hyphen). -/
def normalizeMinus (s : String) : List Char :=
  s.toList.map (fun c => if c = '−' then '-' else c)

/-- `re.match(r"^[+−-]?\d+$", ln.replace("−", "-"))`: a full-line optional
sign followed by one or more digits. -/
def isIntLine (s : String) : Bool :=
  match normalizeMinus s with
  | [] => false
  | c :: rest =>
      if c = '+' ∨ c = '-' then !rest.isEmpty && rest.all Char.isDigit
      else (c :: rest).all Char.isDigit

/-- Decimal digits to a natural number. -/
def digitsToNat (cs : List Char) : Nat :=
  cs.foldl (fun n c => 10 * n + (c.toNat - '0'.toNat)) 0

/-- `int(m.group(0))` for a line accepted by `isIntLine`. -/
def intLineVal (s : String) : Int :=
  match normalizeMinus s with
  | [] => 0
  | c :: rest =>
      if c = '-' then -(digitsToNat rest : Int)
      else if c = '+' then (digitsToNat rest : Int)
      else (digitsToNat (c :: rest) : Int)

/-- `_extract_ints(lines)`: the integer values of the integer-valued
lines, in line order. -/
def extractInts (lines : List String) : List Int :=
  (lines.filter isIntLine).map intLineVal

/-- `re.split(r"[••]", line)` followed by strip-and-drop-empties. -/
def splitBullet (s : String) : List String :=
  ((s.toList.splitOn '•').map (fun cs => pyStrip (String.mk cs))).filter
    (fun p => p ≠ "")

/-- `_split_traits(line)`: split on bullets; if that yields nothing and
the line is all upper case, split on whitespace instead. -/
def splitTraits (line : String) : List String :=
  let parts := splitBullet line
  if parts.isEmpty && pyIsUpper line then pySplit line else parts

/-- `_pick_name_and_sub(lines)`: the last non-meta, non-numeric line is
the name; the line before it is the subname only when fully upper case. -/
def pickNameAndSub (lines : List String) : String × String :=
  let filtered := lines.filter (fun ln => !isMeta ln && (extractInts [ln]).isEmpty)
  match filtered.getLast? with
  | none => ("", "")
  | some name =>
      let sub :=
        match filtered.dropLast.getLast? with
        | some s => if pyIsUpper s then s else ""
        | none => ""
      (name, sub)

/-- The input of `classify_card`: the `Card` dataclass
(`classes/card.py`), with `text` taken in its line-list form. -/
structure Card where
  name : String := ""
  file_path : String := ""
  size_bytes : Int := 0
  modified_ts : Int := 0
  type : String := "Card"
  text : List String := []
deriving Repr, DecidableEq

/-- `detect_type(card)` (`card_classifier.py` lines 58-71); the final
fallback is `card.type or "Card"` (an empty `type` string is falsy). -/
def detectType (card : Card) : String :=
  let lowered := (asLines card.text).map pyLower
  if lowered.any (fun ln => pyContains ln "leader unit")
      || lowered.any (fun ln => ln == "leader") then "Leader"
  else if lowered.any (fun ln => pyContains ln "upgrade")
      || lowered.any (fun ln => pyContains ln "fortification") then "Upgrade"
  else if lowered.any (fun ln => pyContains ln "event") then "Event"
  else if lowered.any (fun ln => ln == "base") then "Base"
  else if lowered.any (fun ln => pyContains ln "unit") then "Unit"
  else if card.type ≠ "" then card.type
  else "Card"

/-- `str(cost or "")`: `None` and `0` are falsy and print as `""`. -/
def numStr : Option Int → String
  | none => ""
  | some n => if n = 0 then "" else toString n

/-- The trait-collection loop shared by the parsers: lines containing a
bullet or fully upper case contribute their `_split_traits`. -/
def traitLines (lines : List String) : List String :=
  lines.foldl
    (fun acc ln =>
      if pyContains ln "•" || pyIsUpper ln then acc ++ splitTraits ln else acc)
    []

/-- The fields `_parse_unit` extracts. -/
structure UnitFields where
  name : String
  subname : String
  arena : String
  traits : List String
  cost : Option Int
  health : Option Int
  power : Option Int
  effect_text : String

/-- `_parse_unit(card, lines)` (`card_classifier.py` lines 74-110). -/
def parseUnit (lines : List String) : UnitFields :=
  let arena :=
    ((lines.find? (fun ln => pyUpper ln == "GROUND" || pyUpper ln == "SPACE")).getD "")
  let nums := extractInts lines
  let cost := nums.get? 0
  let health := nums.get? 1
  let power := nums.get? 2
  let traits := (traitLines lines).filter
    (fun t => t ≠ "" && !(pyUpper t == "UNIT" || pyUpper t == "GROUND" || pyUpper t == "SPACE"))
  let ns := pickNameAndSub lines
  let effect_lines := lines.filter (fun ln =>
    !(ln == "GROUND" || ln == "SPACE" || ln == "UNIT")
    && !isMeta ln
    && !traits.contains ln
    && !(ln == ns.1 || ln == ns.2)
    && !(ln == numStr cost || ln == numStr health || ln == numStr power))
  { name := ns.1, subname := ns.2, arena := arena, traits := traits,
    cost := cost, health := health, power := power,
    effect_text := pyStrip (pyJoin " " effect_lines) }

/-- The fields `_parse_upgrade` extracts. -/
structure UpgradeFields where
  name : String
  subname : String
  traits : List String
  cost : Option Int
  effect_text : String

/-- `_parse_upgrade(card, lines)` (`card_classifier.py` lines 113-139). -/
def parseUpgrade (lines : List String) : UpgradeFields :=
  let nums := extractInts lines
  let cost := nums.head?
  let traits := (traitLines lines).filter
    (fun t => t ≠ "" && !(pyUpper t == "UPGRADE"))
  let ns := pickNameAndSub lines
  let effect_lines := lines.filter (fun ln =>
    !isMeta ln
    && !traits.contains ln
    && !(ln == ns.1 || ln == ns.2)
    && pyUpper ln ≠ "UPGRADE"
    && !isIntLine ln)
  { name := ns.1, subname := ns.2, traits := traits, cost := cost,
    effect_text := pyStrip (pyJoin " " effect_lines) }

/-- The fields `_parse_event` extracts. -/
structure EventFields where
  name : String
  traits : List String
  cost : Option Int
  effect_text : String

/-- `_parse_event(card, lines)` (`card_classifier.py` lines 142-166). -/
def parseEvent (lines : List String) : EventFields :=
  let nums := extractInts lines
  let cost := nums.head?
  let traits := (traitLines lines).filter
    (fun t => t ≠ "" && !(pyUpper t == "EVENT"))
  let ns := pickNameAndSub lines
  let effect_lines := lines.filter (fun ln =>
    !isMeta ln
    && !traits.contains ln
    && pyUpper ln ≠ "EVENT"
    && ln ≠ ns.1
    && !isIntLine ln)
  { name := ns.1, traits := traits, cost := cost,
    effect_text := pyStrip (pyJoin " " effect_lines) }

/-- The fields `_parse_base` extracts. -/
structure BaseFields where
  name : String
  traits : List String
  health : Option Int
  effect_text : String

/-- `_parse_base(card, lines)` (`card_classifier.py` lines 169-188); its
trait loop splits fully-upper-case non-`BASE` lines on whitespace. -/
def parseBase (lines : List String) : BaseFields :=
  let nums := extractInts lines
  let health := nums.head?
  let traits := lines.foldl
    (fun acc ln => if pyIsUpper ln && ln ≠ "BASE" then acc ++ pySplit ln else acc)
    []
  let ns := pickNameAndSub lines
  let effect_lines := lines.filter (fun ln =>
    !isMeta ln
    && pyUpper ln ≠ "BASE"
    && !traits.contains ln
    && ln ≠ ns.1
    && !isIntLine ln)
  { name := ns.1, traits := traits, health := health,
    effect_text := pyStrip (pyJoin " " effect_lines) }

/-- The fields `_parse_leader` extracts. -/
structure LeaderFields where
  name : String
  subname : String
  traits : List String
  cost : Option Int
  health : Option Int
  power : Option Int
  effect_text : String

/-- `_parse_leader(card, lines)` (`card_classifier.py` lines 191-223). -/
def parseLeader (lines : List String) : LeaderFields :=
  let nums := extractInts lines
  let cost := nums.get? 0
  let health := nums.get? 1
  let power := nums.get? 2
  let traits := (traitLines lines).filter
    (fun t => t ≠ "" && !(pyUpper t == "LEADER" || pyUpper t == "LEADER UNIT"))
  let ns := pickNameAndSub lines
  let effect_lines := lines.filter (fun ln =>
    !isMeta ln
    && !(pyUpper ln == "LEADER" || pyUpper ln == "LEADER UNIT")
    && !traits.contains ln
    && !(ln == ns.1 || ln == ns.2)
    && !isIntLine ln)
  { name := ns.1, subname := ns.2, traits := traits,
    cost := cost, health := health, power := power,
    effect_text := pyStrip (pyJoin " " effect_lines) }

/-- The structured dict `classify_card` returns, flattened: `tag` is the
single outer key (`"unit"`, `"upgrade"`, `"event"`, `"base"`, `"leader"`
or `"card"`), the remaining fields are the inner dict's entries, absent
keys keeping their defaults. -/
structure ClassifiedCard where
  tag : String
  file_path : String
  size_bytes : Int
  modified_ts : Int
  type : String
  name : String := ""
  subname : String := ""
  arena : String := ""
  traits : List String := []
  cost : Option Int := none
  health : Option Int := none
  power : Option Int := none
  effect_text : String := ""
  text : List String := []
deriving Repr, DecidableEq

/-- `classify_card(card)` (`card_classifier.py` lines 226-259). -/
def classifyCard (card : Card) : ClassifiedCard :=
  let lines := asLines card.text
  let detected := detectType card
  let base : ClassifiedCard :=
    { tag := "card", file_path := card.file_path, size_bytes := card.size_bytes,
      modified_ts := card.modified_ts, type := detected }
  if detected == "Unit" then
    let f := parseUnit lines
    { base with
        tag := "unit", name := f.name, subname := f.subname,
        arena := f.arena, traits := f.traits, cost := f.cost,
        health := f.health, power := f.power, effect_text := f.effect_text }
  else if detected == "Upgrade" then
    let f := parseUpgrade lines
    { base with
        tag := "upgrade", name := f.name, subname := f.subname,
        traits := f.traits, cost := f.cost, effect_text := f.effect_text }
  else if detected == "Event" then
    let f := parseEvent lines
    { base with
        tag := "event", name := f.name, traits := f.traits,
        cost := f.cost, effect_text := f.effect_text }
  else if detected == "Base" then
    let f := parseBase lines
    { base with
        tag := "base", name := f.name, traits := f.traits,
        health := f.health, effect_text := f.effect_text }
  else if detected == "Leader" then
    let f := parseLeader lines
    { base with
        tag := "leader", name := f.name, subname := f.subname,
        traits := f.traits, cost := f.cost, health := f.health,
        power := f.power, effect_text := f.effect_text }
  else
    { base with tag := "card", text := lines }

/-- The concrete record of the specification's classification example. -/
def exampleCard : Card :=
  { name := "", file_path := "", size_bytes := 0, modified_ts := 0,
    type := "Card",
    text := ["UNIT", "• SOLDIER", "3", "4", "2", "Some effect text", "HAN SOLO"] }

end Classifier

/-! ### Record store: `swu_search_app/main.py` -/

namespace Store

/-- A stored card record, carrying exactly the allow-listed fields
(`SearchWindow.ALLOWED_FIELDS`), which are also exactly the fields
`pdf_page_to_card` produces. -/
structure StoredCard where
  file_path : String := ""
  pdf_path : String := ""
  page_index : Int := 0
  size_bytes : Int := 0
  modified_ts : Int := 0
  scanned_text : String := ""
deriving Repr, DecidableEq

/-- One value of the persisted `folders` mapping, as written by
`save_folder_cards`. -/
structure FolderEntry where
  folder_path : String := ""
  last_scanned : String := ""
  card_count : Int := 0
  cards : List StoredCard := []
deriving Repr, DecidableEq

/-- The `folders` dict of the cache document, as an insertion-ordered
association list (the JSON object model: keys unique, order preserved). -/
abbrev Cache := List (String × FolderEntry)

/-- Python `d[k] = v` on an insertion-ordered dict: update in place when
the key is present, append otherwise. -/
def dictInsert {β : Type} (d : List (String × β)) (k : String) (v : β) :
    List (String × β) :=
  if d.any (fun p => p.1 == k) then
    d.map (fun p => if p.1 == k then (k, v) else p)
  else
    d ++ [(k, v)]

/-- `d.get(k)` / `d[k]` on the association-list dict. -/
def lookupVal {β : Type} (d : List (String × β)) (k : String) : Option β :=
  (d.find? (fun p => p.1 == k)).map (fun p => p.2)

/-- The item-reordering prologue of `_collect_cards` (`main.py` lines
600-604): when a non-empty `preferred_path` is a key of `folders`, move
its entry to the end of the iteration order. -/
def collectItems (folders : Cache) : Option String → Cache
  | none => folders
  | some p =>
      match folders.find? (fun q => q.1 == p) with
      | some pr =>
          if p ≠ "" then folders.filter (fun q => q.1 != p) ++ [(p, pr.2)]
          else folders
      | none => folders

/-- The body of `_collect_cards`'s double loop (`main.py` lines 613-620)
for one stored card: skip an empty `file_path`, otherwise
`by_file[file_path] = card`. (`allowed` is `None` here: the optional
`_normalize_card` projection rewrites the stored value, never the file
key, so the merged key structure is unchanged by it.) -/
def byFileInsert (d : List (String × StoredCard)) (card : StoredCard) :
    List (String × StoredCard) :=
  if card.file_path == "" then d else dictInsert d card.file_path card

/-- The `by_file` dict built by `_collect_cards`: iterate the reordered
items, and within each entry its stored cards, inserting each. -/
def byFileOf (items : Cache) : List (String × StoredCard) :=
  items.foldl (fun d kv => kv.2.cards.foldl byFileInsert d) []

/-- `_collect_cards(cache, preferred_path)` (`main.py` lines 592-622):
the flattened, deduplicated view — `list(by_file.values())`. -/
def collectCards (folders : Cache) (preferredPath : Option String) :
    List StoredCard :=
  (byFileOf (collectItems folders preferredPath)).map (fun p => p.2)

/-- All stored cards of a cache in stored iteration order (the
concatenation of each folder entry's `cards`). -/
def flatCards (items : Cache) : List StoredCard :=
  (items.map (fun kv => kv.2.cards)).flatten

/-- The card list of the batch stored under key `p` (empty when absent). -/
def storedBatch (folders : Cache) (p : String) : List StoredCard :=
  match folders.find? (fun q => q.1 == p) with
  | some pr => pr.2.cards
  | none => []

/-- `save_folder_cards(folder_path, cards)` as a pure transform of the
`folders` dict (`main.py` lines 637-647): replace the whole entry under
`folder_path` with a fresh snapshot. -/
def saveFolderCards (cache : Cache) (folderPath lastScanned : String)
    (cards : List StoredCard) : Cache :=
  dictInsert cache folderPath
    { folder_path := folderPath, last_scanned := lastScanned,
      card_count := (cards.length : Int), cards := cards }

/-- `_normalize_card(card, ALLOWED_FIELDS)` applied to a record produced
by `pdf_page_to_card`: such a record carries exactly the six allow-listed
fields and no legacy single-key wrapper, so the projection
`{k: card[k] for k in allowed if k in card}` rebuilds the same record. -/
def normalizeScanned (c : StoredCard) : StoredCard :=
  { file_path := c.file_path, pdf_path := c.pdf_path,
    page_index := c.page_index, size_bytes := c.size_bytes,
    modified_ts := c.modified_ts, scanned_text := c.scanned_text }

/-- The record list `_on_scan_finished` hands to `save_folder_cards`
(`main.py` lines 280-283): each completed card normalized, in the order
the worker delivered them (`concurrent.futures.as_completed` completion
order, `scan_worker.py` lines 49-63). No reordering is applied. -/
def persistedScanCards (cards : List StoredCard) : List StoredCard :=
  cards.map normalizeScanned

/-- Strict lexicographic order on the characters of two strings. -/
def strLT : List Char → List Char → Bool
  | [], [] => false
  | [], _ :: _ => true
  | _ :: _, [] => false
  | a :: as, b :: bs => if a < b then true else if b < a then false else strLT as bs

/-- The deterministic order the specification prescribes before
persisting: `source_ref` (the pdf path), then `sub_index` (the page
index). -/
def scanKeyLE (a b : StoredCard) : Prop :=
  strLT a.pdf_path.toList b.pdf_path.toList = true
    ∨ (a.pdf_path = b.pdf_path ∧ a.page_index ≤ b.page_index)

end Store

/-! ### Persistence layer: `_save_cache` as filesystem operations -/

namespace Persist

/-- A filesystem operation relevant to an all-or-nothing write
discipline. -/
inductive FsOp where
  | write (name : String) (content : String)
  | rename (src dst : String)
deriving Repr, DecidableEq

/-- `_data_file_path()`: the single backing file. (The `appdirs` user
directory prefix plays no role in the write discipline.) -/
def dataFileName : String := "appData.json"

/-- `_save_cache(data)` (`main.py` lines 577-579) performs exactly one
filesystem operation: `path.write_text(json.dumps(data, indent=2))` — a
direct in-place write of the serialized document `doc`. No temporary
file, no rename. -/
def saveCacheOps (doc : String) : List FsOp :=
  [FsOp.write dataFileName doc]

/-- Filesystem contents: file name to contents. -/
def FsState : Type := String → Option String

/-- A filesystem holding only the data file, with the given committed
contents. -/
def initFs (committed : String) : FsState :=
  fun m => if m = dataFileName then some committed else none

/-- Effect of one completed operation. -/
def applyOp (s : FsState) : FsOp → FsState
  | FsOp.write n c => fun m => if m = n then some c else s m
  | FsOp.rename a b => fun m => if m = b then s a else if m = a then none else s m

/-- Run a list of operations to completion. -/
def runOps (s : FsState) (ops : List FsOp) : FsState :=
  ops.foldl applyOp s

/-- Modelled from the spec: the crash semantics behind §4.3's
"write-to-temporary-file-then-rename, or an equivalent all-or-nothing
write ... a crash mid-write never corrupts previously committed state"
(code under `src/` performs the write but the on-crash filesystem
behaviour itself is environmental). A crash during a `write` leaves the
target file holding some prefix of the new content; a `rename` is atomic
(interrupting it leaves the state before it). -/
def crashDuring (s : FsState) : FsOp → String → FsState
  | FsOp.write n _, part => fun m => if m = n then some part else s m
  | FsOp.rename _ _, _ => s

/-- Run the first `k` operations, then crash during operation `k` (run
everything when `k` is past the end). -/
def runCrashAt (s : FsState) (ops : List FsOp) (k : Nat) (part : String) :
    FsState :=
  match (ops.drop k).head? with
  | some op => crashDuring (runOps s (ops.take k)) op part
  | none => runOps s ops

/-- A crash leaves a prefix of the content being written. -/
def validPartial (ops : List FsOp) (k : Nat) (part : String) : Prop :=
  match (ops.drop k).head? with
  | some (FsOp.write _ c) => part.toList.isPrefixOf c.toList = true
  | _ => True

end Persist

end SwuSearch

/-! ## Claim theorems -/

namespace SwuSearch

open SearchFilters

/-- C4: for all literal tokens `x`, `y`, `z` and every searchable text,
the unparenthesised token sequence `x OR y AND z` evaluates as
`match(x) OR (match(y) AND match(z))` — AND binds tighter than OR — while
the parenthesised `( x OR y ) AND z` evaluates as
`(match(x) OR match(y)) AND match(z)`. -/
theorem and_binds_tighter_than_or (x y z h : String)
    (hx : isPlainTok x) (hy : isPlainTok y) (hz : isPlainTok z) :
    evalRpn (toRpn [x, "OR", y, "AND", z]) h
        = (matchToken x h || (matchToken y h && matchToken z h))
    ∧ evalRpn (toRpn ["(", x, "OR", y, ")", "AND", z]) h
        = ((matchToken x h || matchToken y h) && matchToken z h) := by
  obtain ⟨hx1, hx2, hx3, hx4⟩ := hx
  obtain ⟨hy1, hy2, hy3, hy4⟩ := hy
  obtain ⟨hz1, hz2, hz3, hz4⟩ := hz
  constructor <;>
    simp [toRpn, toRpnAux, isBoolOp, precOf, popGE, popToParen, evalRpn,
      evalStep, popBool, hx1, hx2, hx3, hx4, hy1, hy2, hy3, hy4, hz1, hz2, hz3,
      hz4]

/-- Witness for C4: at `x := "a"`, `y := "b"`, `z := "c"`,
text `"b c"`, the unparenthesised form is true (`b` and `c` both match)
and the parenthesised form is also true. -/
theorem and_binds_tighter_than_or_witness :
    evalRpn (toRpn ["a", "OR", "b", "AND", "c"]) "b c" = true
    ∧ evalRpn (toRpn ["(", "a", "OR", "b", ")", "AND", "c"]) "b c" = true :=
  ⟨((and_binds_tighter_than_or "a" "b" "c" "b c" (by decide) (by decide)
      (by decide)).1).trans (by decide),
   ((and_binds_tighter_than_or "a" "b" "c" "b c" (by decide) (by decide)
      (by decide)).2).trans (by decide)⟩

/-- C6: query evaluation is total — it always returns a boolean — and a
boolean operator with a missing operand treats the missing side as false:
for every literal token `t`, the token sequence `t AND` evaluates to
false, and `t OR` evaluates to `match(t)` (false OR the one operand). -/
theorem missing_operand_is_false (t h : String) (ht : isPlainTok t) :
    (∀ e h2 : String,
        evaluate_expression e h2 = true ∨ evaluate_expression e h2 = false)
    ∧ evalRpn (toRpn [t, "AND"]) h = false
    ∧ evalRpn (toRpn [t, "OR"]) h = matchToken t h := by
  obtain ⟨h1, h2, h3, h4⟩ := ht
  refine ⟨fun e h2 => Bool.eq_false_or_eq_true (evaluate_expression e h2),
    ?_, ?_⟩ <;>
    simp [toRpn, toRpnAux, isBoolOp, precOf, popGE, popToParen, evalRpn,
      evalStep, popBool, h1, h2, h3, h4]

/-- Witness for C6: at `t := "x"` and text `"x"`, the token `"x"` itself
matches the text, yet `x AND` evaluates to false. -/
theorem missing_operand_is_false_witness :
    evalRpn (toRpn ["x", "AND"]) "x" = false :=
  (missing_operand_is_false "x" "x" (by decide)).2.1

/-- C10: only the exact upper-case tokens `"AND"` and `"OR"` act as
boolean operators: any other casing (`and`, `or`, `And`, ...) passes
through the operator-normalisation map unchanged, is emitted by the
shunting yard as an ordinary operand, and is matched by lower-casing the
token and testing substring containment in the searchable text — so
`x t y` with such a `t` evaluates to `match(y)` (three stacked literals,
top of stack last), while genuine `x AND y` / `x OR y` evaluate
conjunction / disjunction. -/
theorem lowercase_and_or_are_literals (t x y h : String)
    (ht : pyLower t = "and" ∨ pyLower t = "or")
    (ht1 : t ≠ "AND") (ht2 : t ≠ "OR")
    (hx : isPlainTok x) (hy : isPlainTok y) :
    (if t == "AND" then "AND" else if t == "OR" then "OR" else t) = t
    ∧ toRpn [x, t, y] = [x, t, y]
    ∧ evalRpn (toRpn [x, t, y]) h = matchToken y h
    ∧ matchToken t h = pyContains h (pyLower t)
    ∧ evalRpn (toRpn [x, "AND", y]) h = (matchToken x h && matchToken y h)
    ∧ evalRpn (toRpn [x, "OR", y]) h = (matchToken x h || matchToken y h) := by
  have ht3 : t ≠ "(" := by
    rintro rfl
    rcases ht with h' | h' <;> exact absurd h' (by decide)
  have ht4 : t ≠ ")" := by
    rintro rfl
    rcases ht with h' | h' <;> exact absurd h' (by decide)
  obtain ⟨hx1, hx2, hx3, hx4⟩ := hx
  obtain ⟨hy1, hy2, hy3, hy4⟩ := hy
  refine ⟨by simp [ht1, ht2], ?_, ?_, rfl, ?_, ?_⟩ <;>
    simp [toRpn, toRpnAux, isBoolOp, precOf, popGE, popToParen, evalRpn,
      evalStep, popBool, ht1, ht2, ht3, ht4, hx1, hx2, hx3, hx4, hy1, hy2,
      hy3, hy4]

/-- Witness for C10: at `t := "and"`, `x := "foo"`, `y := "bar"`, text
`"bar"`: `foo and bar` evaluates to true (the last literal `bar`
matches), whereas `foo AND bar` evaluates to false. -/
theorem lowercase_and_or_are_literals_witness :
    evalRpn (toRpn ["foo", "and", "bar"]) "bar" = true
    ∧ evalRpn (toRpn ["foo", "AND", "bar"]) "bar" = false :=
  ⟨((lowercase_and_or_are_literals "and" "foo" "bar" "bar" (Or.inl (by decide))
      (by decide) (by decide) (by decide) (by decide)).2.2.1).trans (by decide),
   ((lowercase_and_or_are_literals "and" "foo" "bar" "bar" (Or.inl (by decide))
      (by decide) (by decide) (by decide) (by decide)).2.2.2.2.1).trans (by decide)⟩

/-- C5 counterexample: the claim "evaluating `( a` gives the same
boolean as evaluating `( a )` for every text" is false — on the text
`"a"` the unclosed form gives false (the leftover `(` is evaluated as a
literal and `"("` is not a substring of `"a"`), while the closed form
gives true. -/
theorem unmatched_paren_cex :
    ¬ (∀ h : String,
        evaluate_expression "( a" h = evaluate_expression "( a )" h) := by
  intro hcl
  have h' := hcl "a"
  have h1 : evaluate_expression "( a" "a" = false := by decide
  have h2 : evaluate_expression "( a )" "a" = true := by decide
  rw [h1, h2] at h'
  exact Bool.false_ne_true h'

/-- C5 amended: an unmatched `)` pops any pending operators and is then
dropped (with nothing pending it is simply ignored); an unmatched `(` is
NOT implicitly closed at end of input — the shunting yard pops it into
the postfix output, where evaluation treats it as the literal token `(`.
So for every text, `( a` evaluates to the substring test for `(`, which
differs from `( a )` (the match for `a`): e.g. on text `"a"` the former
is false and the latter true. -/
theorem unmatched_paren_behavior (x h : String) (hx : isPlainTok x) :
    toRpn [x, ")"] = [x]
    ∧ toRpn ["(", x, ")"] = [x]
    ∧ toRpn ["(", x] = [x, "("]
    ∧ evalRpn (toRpn ["(", x]) h = matchToken "(" h
    ∧ evalRpn (toRpn ["(", x, ")"]) h = matchToken x h
    ∧ evaluate_expression "( a" "a" = false
    ∧ evaluate_expression "( a )" "a" = true := by
  obtain ⟨hx1, hx2, hx3, hx4⟩ := hx
  refine ⟨?_, ?_, ?_, ?_, ?_, by decide, by decide⟩ <;>
    simp [toRpn, toRpnAux, isBoolOp, precOf, popGE, popToParen, evalRpn,
      evalStep, popBool, hx1, hx2, hx3, hx4]

/-- Witness for the amended C5: at `x := "a"` and text `"("`, the
unclosed `( a` evaluates to true — the leftover `(` matched the text —
while the closed `( a )` evaluates to false. -/
theorem unmatched_paren_behavior_witness :
    evalRpn (toRpn ["(", "a"]) "(" = true
    ∧ evalRpn (toRpn ["(", "a", ")"]) "(" = false :=
  ⟨((unmatched_paren_behavior "a" "(" (by decide)).2.2.2.1).trans (by decide),
   ((unmatched_paren_behavior "a" "(" (by decide)).2.2.2.2.1).trans (by decide)⟩

/-- C7: filtering with an empty include and empty exclude expression
returns every input record in input order, and an expression that strips
to empty evaluates to true against every text. -/
theorem empty_filters_keep_all :
    (∀ cards : List SearchCard, filter_cards cards "" "" = cards)
    ∧ (∀ e h : String, pyStrip e = "" → evaluate_expression e h = true) := by
  constructor
  · intro cards
    simp [filter_cards, evaluate_expression, pyStrip, stripChars]
  · intro e h he
    simp [evaluate_expression, he]

/-- Witness for C7: a two-record list passes through the empty filters
unchanged, and the whitespace-only expression `"   "` evaluates to true
against the text `"anything"`. -/
theorem empty_filters_keep_all_witness :
    filter_cards [{ scanned_text := some "alpha" }, { pdf_path := some "b.pdf" }] "" ""
        = [{ scanned_text := some "alpha" }, { pdf_path := some "b.pdf" }]
    ∧ evaluate_expression "   " "anything" = true :=
  ⟨empty_filters_keep_all.1 [{ scanned_text := some "alpha" }, { pdf_path := some "b.pdf" }],
   empty_filters_keep_all.2 "   " "anything" (by decide)⟩

open Classifier in
/-- C1 counterexample: on the raw lines
`["UNIT", "• SOLDIER", "3", "4", "2", "Some effect text", "HAN SOLO"]`
the classifier does NOT produce the claimed record: the fully-upper-case
name line `HAN SOLO` is also collected as a trait, so `traits` is
`["SOLDIER", "HAN SOLO"]` rather than `["SOLDIER"]`, and the bulleted
trait line `• SOLDIER` (which differs from the extracted trait
`SOLDIER`) survives into `effect_text`. -/
theorem classify_example_cex :
    ¬ ((classifyCard exampleCard).tag = "unit"
        ∧ (classifyCard exampleCard).cost = some 3
        ∧ (classifyCard exampleCard).health = some 4
        ∧ (classifyCard exampleCard).power = some 2
        ∧ (classifyCard exampleCard).traits = ["SOLDIER"]
        ∧ (classifyCard exampleCard).name = "HAN SOLO"
        ∧ (classifyCard exampleCard).effect_text = "Some effect text") := by
  decide

open Classifier in
/-- C1 amended: the example record classifies to kind Unit with cost 3,
health 4, power 2 and name `HAN SOLO`, but with
`traits = ["SOLDIER", "HAN SOLO"]` (the all-caps name line is swept into
the trait loop) and
`effect_text = "• SOLDIER Some effect text"` (the raw bulleted line is
not any of the extracted traits, so it stays). -/
theorem classify_example_amended :
    (classifyCard exampleCard).tag = "unit"
    ∧ (classifyCard exampleCard).type = "Unit"
    ∧ (classifyCard exampleCard).cost = some 3
    ∧ (classifyCard exampleCard).health = some 4
    ∧ (classifyCard exampleCard).power = some 2
    ∧ (classifyCard exampleCard).traits = ["SOLDIER", "HAN SOLO"]
    ∧ (classifyCard exampleCard).name = "HAN SOLO"
    ∧ (classifyCard exampleCard).subname = ""
    ∧ (classifyCard exampleCard).effect_text = "• SOLDIER Some effect text" := by
  decide

open Persist in
/-- C8 counterexample: `_save_cache` writes the document in place with a
single direct `write_text` — no temporary file, no rename — so a crash
mid-write can leave the data file holding a strict prefix of the new
content, which is neither the previously committed document nor the new
one: with committed contents `"OLD"`, new document `"NEW"` and the crash
leaving the prefix `"N"`, the file reads `"N"`. -/
theorem save_cache_not_atomic_cex :
    ¬ (∀ (old doc : String) (k : Nat) (part : String),
        validPartial (saveCacheOps doc) k part →
        runCrashAt (initFs old) (saveCacheOps doc) k part dataFileName = some old
        ∨ runCrashAt (initFs old) (saveCacheOps doc) k part dataFileName = some doc) := by
  intro hcl
  have h' := hcl "OLD" "NEW" 0 "N"
    (show ("N".toList.isPrefixOf "NEW".toList) = true by decide)
  have hr : runCrashAt (initFs "OLD") (saveCacheOps "NEW") 0 "N" dataFileName
      = some "N" := by
    simp [runCrashAt, saveCacheOps, crashDuring, runOps, initFs]
  rw [hr] at h'
  rcases h' with h' | h' <;> simp at h'

open Persist in
/-- C8 amended: `save_batch` does rewrite the entire persisted store
document, and an uninterrupted write commits exactly the new document;
but the write is a single direct in-place write (no temporary file, no
rename), so it is not all-or-nothing — an interruption can leave partial
content on disk (see the counterexample), and only the error itself is
surfaced to the caller (`_save_cache` has no exception handling). -/
theorem save_cache_direct_whole_write (doc old : String) :
    saveCacheOps doc = [FsOp.write dataFileName doc]
    ∧ runOps (initFs old) (saveCacheOps doc) dataFileName = some doc := by
  refine ⟨rfl, ?_⟩
  simp [runOps, saveCacheOps, applyOp, initFs]

open Store in
/-- C9 counterexample: the records handed to `save_folder_cards` by
`_on_scan_finished` are in worker completion order — no sort by
`source_ref` (pdf path) then `sub_index` (page index) is applied — so a
completion order `[b.pdf, a.pdf]` is persisted unsorted, and two
permuted completion orders of the same records persist different lists
(stored output is not order-independent). -/
theorem scan_persist_order_cex :
    (¬ (∀ cards : List StoredCard,
          List.Pairwise scanKeyLE (persistedScanCards cards)))
    ∧ (¬ (∀ cards cards' : List StoredCard, cards.Perm cards' →
          persistedScanCards cards = persistedScanCards cards')) := by
  constructor
  · intro hcl
    have h' := hcl [{ pdf_path := "b.pdf" }, { pdf_path := "a.pdf" }]
    have h0 : persistedScanCards [{ pdf_path := "b.pdf" }, { pdf_path := "a.pdf" }]
        = [{ pdf_path := "b.pdf" }, { pdf_path := "a.pdf" }] := rfl
    rw [h0, List.pairwise_cons] at h'
    have hk := h'.1 { pdf_path := "a.pdf" } (by decide)
    rcases hk with hk | hk
    · exact absurd hk (by decide)
    · exact absurd hk.1 (by decide)
  · intro hcl
    have h' := hcl [{ pdf_path := "b.pdf" }, { pdf_path := "a.pdf" }]
      [{ pdf_path := "a.pdf" }, { pdf_path := "b.pdf" }]
      (List.Perm.swap _ _ _)
    exact absurd h' (by decide)

open Store in
/-- C9 amended: before persisting, `_on_scan_finished` only projects each
completed record to the allow-listed fields (the identity on records
produced by `pdf_page_to_card`); the records are stored in exactly the
order the workers delivered them, with no deterministic reordering. -/
theorem scan_persist_completion_order (cards : List Store.StoredCard) :
    persistedScanCards cards = cards := by
  induction cards with
  | nil => rfl
  | cons c cs ih =>
      show c :: persistedScanCards cs = c :: cs
      rw [ih]

open Store

/-! #### Store lemmas: the `by_file` dict invariant and lookup laws -/

/-- Invariant of the `by_file` dict: every value's file key equals its
dict key, and the keys are pairwise distinct. -/
def goodDict (d : List (String × StoredCard)) : Prop :=
  (∀ p ∈ d, p.2.file_path = p.1) ∧ (d.map Prod.fst).Nodup

lemma goodDict_nil : goodDict [] := ⟨by simp, by simp⟩

lemma goodDict_dictInsert (d : List (String × StoredCard)) (k : String)
    (v : StoredCard) (hd : goodDict d) (hv : v.file_path = k) :
    goodDict (dictInsert d k v) := by
  unfold dictInsert
  by_cases h : d.any (fun p => p.1 == k) = true
  · rw [if_pos h]
    constructor
    · intro p hp
      obtain ⟨q, hq, hfq⟩ := List.mem_map.mp hp
      by_cases hqk : (q.1 == k) = true
      · rw [if_pos hqk] at hfq
        rw [← hfq]
        exact hv
      · rw [if_neg hqk] at hfq
        rw [← hfq]
        exact hd.1 q hq
    · have hkeys : (d.map (fun p => if p.1 == k then (k, v) else p)).map Prod.fst
          = d.map Prod.fst := by
        rw [List.map_map]
        apply List.map_congr_left
        intro q _
        by_cases hqk : (q.1 == k) = true
        · simp only [Function.comp, if_pos hqk]
          exact (eq_of_beq hqk).symm
        · simp [Function.comp, hqk]
      rw [hkeys]
      exact hd.2
  · rw [if_neg h]
    constructor
    · intro p hp
      rcases List.mem_append.mp hp with hp' | hp'
      · exact hd.1 p hp'
      · rw [List.mem_singleton.mp hp']
        exact hv
    · rw [List.map_append]
      refine List.Nodup.append hd.2 (by simp) ?_
      intro a ha hb
      simp only [List.map_cons, List.map_nil, List.mem_singleton] at hb
      obtain ⟨q, hq, hfq⟩ := List.mem_map.mp ha
      have := List.any_eq_false.mp (Bool.not_eq_true _ |>.mp h) q hq
      apply this
      rw [hfq, hb]
      exact beq_self_eq_true k
  
lemma goodDict_byFileInsert (d : List (String × StoredCard)) (card : StoredCard)
    (hd : goodDict d) : goodDict (byFileInsert d card) := by
  unfold byFileInsert
  by_cases h : (card.file_path == "") = true
  · rw [if_pos h]; exact hd
  · rw [if_neg h]; exact goodDict_dictInsert d card.file_path card hd rfl

lemma goodDict_foldl (cards : List StoredCard) (d : List (String × StoredCard))
    (hd : goodDict d) : goodDict (cards.foldl byFileInsert d) := by
  induction cards generalizing d with
  | nil => exact hd
  | cons c cs ih => exact ih _ (goodDict_byFileInsert d c hd)

lemma byFileOf_eq_flat_aux (items : Cache) (d : List (String × StoredCard)) :
    items.foldl (fun d kv => kv.2.cards.foldl byFileInsert d) d
      = (flatCards items).foldl byFileInsert d := by
  induction items generalizing d with
  | nil => rfl
  | cons kv rest ih =>
      show rest.foldl _ (kv.2.cards.foldl byFileInsert d) = _
      rw [ih]
      have : flatCards (kv :: rest) = kv.2.cards ++ flatCards rest := by
        simp [flatCards]
      rw [this, List.foldl_append]

lemma byFileOf_eq_flat (items : Cache) :
    byFileOf items = (flatCards items).foldl byFileInsert [] :=
  byFileOf_eq_flat_aux items []

lemma goodDict_byFileOf (items : Cache) : goodDict (byFileOf items) := by
  rw [byFileOf_eq_flat]
  exact goodDict_foldl _ _ goodDict_nil

/-- C2: in every merged (flattened) view, over every stored cache content
and every optional preferred batch key, no two records share a
`file_path`: the list of file keys of `_collect_cards`'s result has no
duplicates. -/
theorem merged_view_file_keys_nodup (folders : Cache) (pref : Option String) :
    ((collectCards folders pref).map StoredCard.file_path).Nodup := by
  have hg := goodDict_byFileOf (collectItems folders pref)
  have hmap : (collectCards folders pref).map StoredCard.file_path
      = (byFileOf (collectItems folders pref)).map Prod.fst := by
    unfold collectCards
    rw [List.map_map]
    apply List.map_congr_left
    intro p hp
    exact hg.1 p hp
  rw [hmap]
  exact hg.2

lemma lookupVal_cons (p : String × StoredCard)
    (rest : List (String × StoredCard)) (k : String) :
    lookupVal (p :: rest) k
      = if (p.1 == k) = true then some p.2 else lookupVal rest k := by
  unfold lookupVal
  cases hp : (p.1 == k) <;> simp [List.find?_cons, hp]

lemma lookupVal_mapReplace (d : List (String × StoredCard)) (k : String)
    (v : StoredCard) (h : d.any (fun p => p.1 == k) = true) :
    lookupVal (d.map (fun p => if p.1 == k then (k, v) else p)) k = some v := by
  induction d with
  | nil => simp at h
  | cons p rest ih =>
      rw [List.map_cons]
      by_cases hp : (p.1 == k) = true
      · rw [if_pos hp, lookupVal_cons]
        rw [if_pos (by simp)]
      · rw [if_neg hp, lookupVal_cons]
        rw [if_neg (by simp [hp])]
        have h' : rest.any (fun p => p.1 == k) = true := by
          rcases List.any_eq_true.mp h with ⟨q, hq, hqk⟩
          rcases List.mem_cons.mp hq with rfl | hq'
          · exact absurd hqk hp
          · exact List.any_eq_true.mpr ⟨q, hq', hqk⟩
        exact ih h'

lemma lookupVal_append_one (d : List (String × StoredCard)) (k k' : String)
    (v : StoredCard) :
    lookupVal (d ++ [(k, v)]) k'
      = (lookupVal d k').or (if (k == k') = true then some v else none) := by
  induction d with
  | nil =>
      show lookupVal [(k, v)] k' = (Option.none).or _
      rw [lookupVal_cons]
      cases hk : (k == k') with
      | false => simp [hk]; rfl
      | true => simp [hk]
  | cons p rest ih =>
      rw [List.cons_append, lookupVal_cons, lookupVal_cons]
      by_cases hp : (p.1 == k') = true
      · rw [if_pos hp, if_pos hp]
        rfl
      · rw [if_neg hp, if_neg hp]
        exact ih

lemma lookupVal_dictInsert_self (d : List (String × StoredCard)) (k : String)
    (v : StoredCard) : lookupVal (dictInsert d k v) k = some v := by
  unfold dictInsert
  by_cases h : d.any (fun p => p.1 == k) = true
  · rw [if_pos h]
    exact lookupVal_mapReplace d k v h
  · rw [if_neg h, lookupVal_append_one]
    have hnone : lookupVal d k = none := by
      unfold lookupVal
      rw [List.find?_eq_none.mpr]
      · rfl
      · intro q hq
        have h' := List.any_eq_false.mp (Bool.not_eq_true _ |>.mp h) q hq
        simpa using h'
    rw [hnone, if_pos (by simp)]
    rfl

lemma lookupVal_dictInsert_other (d : List (String × StoredCard)) (k : String)
    (v : StoredCard) (k' : String) (hne : k' ≠ k) :
    lookupVal (dictInsert d k v) k' = lookupVal d k' := by
  have hkk' : (k == k') = false := by
    simp only [beq_eq_false_iff_ne, ne_eq]
    exact fun hkk => absurd hkk.symm hne
  unfold dictInsert
  by_cases h : d.any (fun p => p.1 == k) = true
  · rw [if_pos h]
    clear h
    induction d with
    | nil => rfl
    | cons p rest ih =>
        rw [List.map_cons, lookupVal_cons, lookupVal_cons]
        by_cases hp : (p.1 == k) = true
        · rw [if_pos hp]
          have hpk' : (p.1 == k') = false := by
            rw [eq_of_beq hp]
            exact hkk'
          rw [if_neg (by simp [hkk']), if_neg (by simp [hpk'])]
          exact ih
        · rw [if_neg hp]
          by_cases hpk' : (p.1 == k') = true
          · rw [if_pos hpk', if_pos hpk']
          · rw [if_neg hpk', if_neg hpk']
            exact ih
  · rw [if_neg h, lookupVal_append_one, hkk']
    simp

lemma getLastQ_cons {α : Type} (a : α) (l : List α) :
    (a :: l).getLast? = l.getLast?.or (some a) := by
  induction l generalizing a with
  | nil => rfl
  | cons b t ih =>
      rw [List.getLast?_cons_cons, ih b, Option.or_assoc]
      rfl

lemma getLastQ_append {α : Type} (l1 l2 : List α) :
    (l1 ++ l2).getLast? = l2.getLast?.or l1.getLast? := by
  induction l1 with
  | nil => simp
  | cons a l ih =>
      rw [List.cons_append, getLastQ_cons, ih, Option.or_assoc, getLastQ_cons]

lemma getLastQ_or_of_ne_nil {α : Type} (l : List α) (o : Option α)
    (hne : l ≠ []) : (l.getLast?).or o = l.getLast? := by
  cases l with
  | nil => exact absurd rfl hne
  | cons a t =>
      rw [getLastQ_cons, Option.or_assoc]
      rfl

lemma lookupVal_foldl (cards : List StoredCard)
    (d : List (String × StoredCard)) (k : String) (hk : k ≠ "") :
    lookupVal (cards.foldl byFileInsert d) k
      = ((cards.filter (fun c => c.file_path == k)).getLast?).or (lookupVal d k) := by
  induction cards generalizing d with
  | nil => simp
  | cons c cs ih =>
      rw [List.foldl_cons, ih]
      cases hc : (c.file_path == k) with
      | true =>
          have hcf : c.file_path = k := eq_of_beq hc
          have hbyf : byFileInsert d c = dictInsert d c.file_path c := by
            unfold byFileInsert
            rw [if_neg (by simp [hcf, hk])]
          rw [hbyf, hcf, lookupVal_dictInsert_self]
          rw [List.filter_cons, if_pos (by simpa using hc), getLastQ_cons,
            Option.or_assoc]
          rfl
      | false =>
          have hlook : lookupVal (byFileInsert d c) k = lookupVal d k := by
            unfold byFileInsert
            by_cases hemp : (c.file_path == "") = true
            · rw [if_pos hemp]
            · rw [if_neg hemp]
              refine lookupVal_dictInsert_other d c.file_path c k ?_
              intro he
              rw [← he] at hc
              simp at hc
          rw [hlook, List.filter_cons, if_neg (by simp [hc])]

lemma values_find?_eq_lookup (d : List (String × StoredCard)) (k : String)
    (hg : ∀ p ∈ d, p.2.file_path = p.1) :
    (d.map (fun p => p.2)).find? (fun c => c.file_path == k) = lookupVal d k := by
  induction d with
  | nil => rfl
  | cons p rest ih =>
      have hp2 : p.2.file_path = p.1 := hg p (List.mem_cons_self p rest)
      rw [List.map_cons, lookupVal_cons]
      cases hc : (p.1 == k) with
      | true =>
          rw [if_pos rfl]
          have hc2 : (p.2.file_path == k) = true := by rw [hp2]; exact hc
          simp [List.find?_cons, hc2]
      | false =>
          rw [if_neg (by simp)]
          have hc2 : (p.2.file_path == k) = false := by rw [hp2]; exact hc
          simp only [List.find?_cons, hc2, cond_false]
          exact ih (fun q hq => hg q (List.mem_cons_of_mem p hq))

lemma flatCards_cons (kv : String × FolderEntry) (rest : Cache) :
    flatCards (kv :: rest) = kv.2.cards ++ flatCards rest := by
  simp [flatCards]

/-- The central lookup law of the merged view: for a non-empty key, the
record `_collect_cards` returns for that key is the LAST card carrying
the key in the reordered iteration (later batches, and later cards
within a batch, overwrite earlier ones). -/
lemma find?_collectCards (folders : Cache) (pref : Option String)
    (k : String) (hk : k ≠ "") :
    (collectCards folders pref).find? (fun c => c.file_path == k)
      = ((flatCards (collectItems folders pref)).filter
          (fun c => c.file_path == k)).getLast? := by
  unfold collectCards
  rw [values_find?_eq_lookup _ _ (goodDict_byFileOf _).1, byFileOf_eq_flat,
    lookupVal_foldl _ _ _ hk]
  simp [lookupVal]

lemma find?_unique_of_nodup (folders : Cache)
    (hnd : (folders.map Prod.fst).Nodup) (p : String)
    (pr : String × FolderEntry)
    (hfind : folders.find? (fun q => q.1 == p) = some pr)
    (kv : String × FolderEntry) (hkv : kv ∈ folders) (hkvp : kv.1 = p) :
    kv = pr := by
  induction folders with
  | nil => cases hkv
  | cons q rest ih =>
      rw [List.map_cons, List.nodup_cons] at hnd
      cases hq : (q.1 == p) with
      | true =>
          have hpr : pr = q := by
            simp only [List.find?_cons, hq, cond_true] at hfind
            exact (Option.some.injEq _ _ ▸ hfind).symm
          rcases List.mem_cons.mp hkv with rfl | hkv'
          · rw [hpr]
          · exfalso
            apply hnd.1
            exact List.mem_map.mpr ⟨kv, hkv', by rw [hkvp, eq_of_beq hq]⟩
      | false =>
          simp only [List.find?_cons, hq, cond_false] at hfind
          rcases List.mem_cons.mp hkv with rfl | hkv'
          · rw [hkvp] at hq
            simp at hq
          · exact ih hnd.2 hfind hkv'

lemma filter_key_of_removed (folders : Cache) (p k : String)
    (hponly : ∀ kv ∈ folders, kv.1 = p →
        kv.2.cards.filter (fun c => c.file_path == k) = []) :
    (flatCards (folders.filter (fun q => q.1 != p))).filter
        (fun c => c.file_path == k)
      = (flatCards folders).filter (fun c => c.file_path == k) := by
  induction folders with
  | nil => rfl
  | cons kv rest ih =>
      have hrest : ∀ q ∈ rest, q.1 = p →
          q.2.cards.filter (fun c => c.file_path == k) = [] :=
        fun q hq hqp => hponly q (List.mem_cons_of_mem kv hq) hqp
      by_cases hkv : (kv.1 != p) = true
      · rw [List.filter_cons, if_pos (by simpa using hkv), flatCards_cons,
          flatCards_cons, List.filter_append, List.filter_append, ih hrest]
      · have hkvp : kv.1 = p := by simpa using hkv
        have hnil := hponly kv (List.mem_cons_self kv rest) hkvp
        rw [List.filter_cons, if_neg (by simpa using hkv), flatCards_cons,
          List.filter_append, hnil, List.nil_append, ih hrest]

/-- C3: the tie-break rule of the merged view, for a file key `k`
present in more than one stored batch. (a) When a non-empty preferred
batch key `p` names a stored batch whose cards contain `k`, flatten
returns the preferred batch's record for `k` (its last card with that
key). (b) With no preferred key, the winning record is the last card
with key `k` in stored iteration order — i.e. the record from the batch
occurring last in stored order. (c) When the preferred batch exists but
lacks the key, the stored-order winner is returned unchanged (the keys of
a parsed JSON object are distinct, which rules out a second batch under
the preferred key). -/
theorem flatten_tiebreak (folders : Cache) (k p : String)
    (hk : k ≠ "")
    (hnd : (folders.map Prod.fst).Nodup)
    (_hmulti : 1 < (folders.filter
        (fun kv => kv.2.cards.any (fun c => c.file_path == k))).length) :
    ((p ≠ "") → (folders.any (fun q => q.1 == p)) = true →
        ((storedBatch folders p).any (fun c => c.file_path == k)) = true →
        (collectCards folders (some p)).find? (fun c => c.file_path == k)
          = ((storedBatch folders p).filter (fun c => c.file_path == k)).getLast?)
    ∧ ((collectCards folders none).find? (fun c => c.file_path == k)
          = ((flatCards folders).filter (fun c => c.file_path == k)).getLast?)
    ∧ ((p ≠ "") → (folders.any (fun q => q.1 == p)) = true →
        ((storedBatch folders p).any (fun c => c.file_path == k)) = false →
        (collectCards folders (some p)).find? (fun c => c.file_path == k)
          = ((flatCards folders).filter (fun c => c.file_path == k)).getLast?) := by
  refine ⟨?_, ?_, ?_⟩
  · intro hp hmem hhas
    obtain ⟨pr, hfind⟩ : ∃ pr, folders.find? (fun q => q.1 == p) = some pr := by
      cases hf : folders.find? (fun q => q.1 == p) with
      | some pr => exact ⟨pr, rfl⟩
      | none =>
          rcases List.any_eq_true.mp hmem with ⟨q, hq, hqp⟩
          exact absurd hqp (by simpa using List.find?_eq_none.mp hf q hq)
    have hitems : collectItems folders (some p)
        = folders.filter (fun q => q.1 != p) ++ [(p, pr.2)] := by
      simp [collectItems, hfind, hp]
    have hbatch : storedBatch folders p = pr.2.cards := by
      simp [storedBatch, hfind]
    rw [hbatch] at hhas ⊢
    rw [find?_collectCards folders (some p) k hk, hitems]
    have hflat : flatCards (folders.filter (fun q => q.1 != p) ++ [(p, pr.2)])
        = flatCards (folders.filter (fun q => q.1 != p)) ++ pr.2.cards := by
      simp [flatCards]
    rw [hflat, List.filter_append, getLastQ_append]
    refine getLastQ_or_of_ne_nil _ _ ?_
    rcases List.any_eq_true.mp hhas with ⟨c, hc, hck⟩
    intro hnil
    have : c ∈ pr.2.cards.filter (fun c => c.file_path == k) :=
      List.mem_filter.mpr ⟨hc, hck⟩
    rw [hnil] at this
    cases this
  · rw [find?_collectCards folders none k hk]
    rfl
  · intro hp hmem hhas
    obtain ⟨pr, hfind⟩ : ∃ pr, folders.find? (fun q => q.1 == p) = some pr := by
      cases hf : folders.find? (fun q => q.1 == p) with
      | some pr => exact ⟨pr, rfl⟩
      | none =>
          rcases List.any_eq_true.mp hmem with ⟨q, hq, hqp⟩
          exact absurd hqp (by simpa using List.find?_eq_none.mp hf q hq)
    have hitems : collectItems folders (some p)
        = folders.filter (fun q => q.1 != p) ++ [(p, pr.2)] := by
      simp [collectItems, hfind, hp]
    have hbatch : storedBatch folders p = pr.2.cards := by
      simp [storedBatch, hfind]
    rw [hbatch] at hhas
    have hprnil : pr.2.cards.filter (fun c => c.file_path == k) = [] := by
      rw [List.filter_eq_nil_iff]
      intro c hc
      have := List.any_eq_false.mp hhas c hc
      simpa using this
    have hponly : ∀ kv ∈ folders, kv.1 = p →
        kv.2.cards.filter (fun c => c.file_path == k) = [] := by
      intro kv hkv hkvp
      rw [find?_unique_of_nodup folders hnd p pr hfind kv hkv hkvp]
      exact hprnil
    rw [find?_collectCards folders (some p) k hk, hitems]
    have hflat : flatCards (folders.filter (fun q => q.1 != p) ++ [(p, pr.2)])
        = flatCards (folders.filter (fun q => q.1 != p)) ++ pr.2.cards := by
      simp [flatCards]
    rw [hflat, List.filter_append, getLastQ_append, hprnil,
      filter_key_of_removed folders p k hponly]
    rfl

/-- Witness for C3: a concrete three-batch store — `f1` and `f2` both
hold a card with file key `k.png` (scanned texts `A` and `B`), `f3`
holds an unrelated card. Preferring `f2` returns `f2`'s record (B);
flattening with no preference returns the record of the last batch in
stored order holding the key (`f2`, B); preferring `f3`, which lacks the
key, also returns the stored-order winner (B). -/
theorem flatten_tiebreak_witness :
    (collectCards
        [("f1", { cards := [{ file_path := "k.png", scanned_text := "A" }] }),
         ("f2", { cards := [{ file_path := "k.png", scanned_text := "B" }] }),
         ("f3", { cards := [{ file_path := "c.png" }] })]
        (some "f2")).find? (fun c => c.file_path == "k.png")
      = some { file_path := "k.png", scanned_text := "B" }
    ∧ (collectCards
        [("f1", { cards := [{ file_path := "k.png", scanned_text := "A" }] }),
         ("f2", { cards := [{ file_path := "k.png", scanned_text := "B" }] }),
         ("f3", { cards := [{ file_path := "c.png" }] })]
        none).find? (fun c => c.file_path == "k.png")
      = some { file_path := "k.png", scanned_text := "B" }
    ∧ (collectCards
        [("f1", { cards := [{ file_path := "k.png", scanned_text := "A" }] }),
         ("f2", { cards := [{ file_path := "k.png", scanned_text := "B" }] }),
         ("f3", { cards := [{ file_path := "c.png" }] })]
        (some "f3")).find? (fun c => c.file_path == "k.png")
      = some { file_path := "k.png", scanned_text := "B" } :=
  ⟨((flatten_tiebreak
      [("f1", { cards := [{ file_path := "k.png", scanned_text := "A" }] }),
       ("f2", { cards := [{ file_path := "k.png", scanned_text := "B" }] }),
       ("f3", { cards := [{ file_path := "c.png" }] })]
      "k.png" "f2" (by decide) (by decide) (by decide)).1
      (by decide) (by decide) (by decide)).trans (by decide),
   ((flatten_tiebreak
      [("f1", { cards := [{ file_path := "k.png", scanned_text := "A" }] }),
       ("f2", { cards := [{ file_path := "k.png", scanned_text := "B" }] }),
       ("f3", { cards := [{ file_path := "c.png" }] })]
      "k.png" "f2" (by decide) (by decide) (by decide)).2.1).trans (by decide),
   ((flatten_tiebreak
      [("f1", { cards := [{ file_path := "k.png", scanned_text := "A" }] }),
       ("f2", { cards := [{ file_path := "k.png", scanned_text := "B" }] }),
       ("f3", { cards := [{ file_path := "c.png" }] })]
      "k.png" "f3" (by decide) (by decide) (by decide)).2.2
      (by decide) (by decide) (by decide)).trans (by decide)⟩

end SwuSearch
